import Mathlib

/-!
Shallow embedding of the news-collection pipeline of SoluneNest/engi
(src/backend/main.py and src/backend/keyword_maker.py).

Python strings are modelled as Lean strings, with the string primitives
(strip, lower, split) written by structural recursion over character
lists so that they evaluate on concrete inputs; `None`-able values as
`Option`; a call that may raise as a value of a raised-or-result
inductive; wall-clock time and the external date parser (dateutil) are
passed in as oracles.
-/

/-- Dropping of leading whitespace characters from a character list. -/
def dropLeadWs : List Char → List Char
  | [] => []
  | c :: cs => if c.isWhitespace then dropLeadWs cs else c :: cs

/-- Model of Python `str.strip()`: remove surrounding whitespace (written
by structural recursion so that it evaluates on concrete inputs). -/
def pyStrip (s : String) : String :=
  String.mk ((dropLeadWs (dropLeadWs s.toList).reverse).reverse)

/-- Model of Python `str.lower()`: charwise lowering (ASCII letters are
lowered, characters outside ASCII are unchanged, as for every character
appearing in this source). -/
def pyLower (s : String) : String := String.mk (s.toList.map Char.toLower)

/-- Comma splitting of a character list, accumulating the current piece. -/
def splitCommaAux : List Char → List Char → List (List Char)
  | [], cur => [cur.reverse]
  | c :: cs, cur =>
    if c == ',' then cur.reverse :: splitCommaAux cs []
    else splitCommaAux cs (c :: cur)

/-- Model of Python `str.split(",")`: the empty string yields one empty
piece, and every comma starts a new piece. -/
def pySplitComma (s : String) : List String :=
  (splitCommaAux s.toList []).map String.mk

/-- Model of Python truthiness of an optional string: `None` and the empty
string are falsy (`if not OPENAI_API_KEY`, `if not text`). -/
def strFalsy : Option String → Bool
  | none => true
  | some s => s == ""

/-- Model of Python slicing `s[:n]` on a string (first `n` characters). -/
def pyTake (n : Nat) (s : String) : String := String.mk (s.toList.take n)

/-- Model of Python list slicing `l[:m]` with an integer bound: a
nonnegative `m` keeps the first `m` elements, a negative `m` drops the
last `-m` elements (clamped at zero). -/
def pySliceTo {α : Type} (l : List α) (m : Int) : List α :=
  if 0 ≤ m then l.take m.toNat else l.take (l.length - (-m).toNat)

/-- Article record built by the collector (src/backend/main.py:56): the
dict with keys title, link, published, source, summary, keywords; the
collector always attaches the literal keyword placeholder "[]". -/
structure Article where
  title : String
  link : String
  published : String
  source : String
  summary : String
  keywords : String
deriving DecidableEq

/-- One parsed feed entry as seen through `getattr`: each of the four
fields read by `collect_from_feed` may be absent (src/backend/main.py:44-56). -/
structure FeedEntry where
  title : Option String
  link : Option String
  published : Option String
  summary : Option String
deriving DecidableEq

/-- One feed configuration dict: `feed_config.get("feed_url")` and
`feed_config.get("source", "Unknown")` (src/backend/main.py:33-34). -/
structure FeedConfig where
  feed_url : Option String
  source : Option String
deriving DecidableEq

/-- The display name of a feed: the `source` key, defaulting to "Unknown". -/
def FeedConfig.sourceName (c : FeedConfig) : String := c.source.getD "Unknown"

/-- Outcome of the `feedparser.parse` call at src/backend/main.py:37: the
call raised, or it produced a document with a list of entries (a falsy or
entry-less document is the `doc []` case, matching `if not feed or not
feed.entries`). -/
inductive FeedParse where
  | raised : FeedParse
  | doc : List FeedEntry → FeedParse
deriving DecidableEq

/-- Per-entry body of the loop in `collect_from_feed`
(src/backend/main.py:43-56): effective title defaults to "No Title",
effective link to ""; after stripping, an empty title or link skips the
entry; the published string (defaulting to the current time in ISO form)
is given to the date parser `dparse`, whose failure substitutes `nowIso`;
the summary defaults to ""; keywords are the literal placeholder "[]". -/
def entryArticle (dparse : String → Option String) (nowIso : String)
    (src : String) (e : FeedEntry) : Option Article :=
  let title := pyStrip (e.title.getD "No Title")
  let link := pyStrip (e.link.getD "")
  if title = "" ∨ link = "" then none
  else
    let publishedStr := e.published.getD nowIso
    let published :=
      match dparse publishedStr with
      | some p => p
      | none => nowIso
    some ⟨title, link, published, src, e.summary.getD "", "[]"⟩

/-- Model of `EnhancedNewsCollector.collect_from_feed`
(src/backend/main.py:32-61): a raised parse or an entry-less document
yields `[]`; otherwise the first 15 entries are processed, skipping the
blank ones. `dparse` is the dateutil oracle and `nowIso` the current
wall-clock time in ISO form. -/
def collect_from_feed (dparse : String → Option String) (nowIso : String)
    (cfg : FeedConfig) (parse : FeedParse) : List Article :=
  match parse with
  | FeedParse.raised => []
  | FeedParse.doc entries =>
    if entries.isEmpty then []
    else (entries.take 15).filterMap (entryArticle dparse nowIso cfg.sourceName)

/-- Projection of a list of articles to their links. -/
def links (l : List Article) : List String := l.map Article.link

/-- One assignment into the dict comprehension
`{article["link"]: article for article in all_articles}`
(src/backend/main.py:103): an existing key keeps its position and gets the
new value; a new key is appended. -/
def upsertByLink (acc : List Article) (a : Article) : List Article :=
  if acc.any (fun b => b.link == a.link) then
    acc.map (fun b => if b.link == a.link then a else b)
  else acc ++ [a]

/-- Model of `list({article["link"]: article for article in all_articles}.values())`
(src/backend/main.py:103): deduplication by link with Python dict
semantics, keys in first-occurrence order and last-write-wins values. -/
def dedupByLink (articles : List Article) : List Article :=
  articles.foldl upsertByLink []

/-- Outcome of one `db.insert_article` call (src/backend/main.py:70): a
boolean result, or the call raised. -/
inductive DbResult where
  | ok : Bool → DbResult
  | raised : DbResult
deriving DecidableEq

/-- The counter dict built by `save_articles` (src/backend/main.py:66). -/
structure SaveStats where
  inserted : Nat
  updated : Nat
  skipped : Nat
deriving DecidableEq

/-- Loop of `save_articles` started at call index `i`
(src/backend/main.py:67-77): a `True` result counts as inserted, a
`False` result as skipped, and a raised call is caught and also counted
as skipped; the loop always continues with the remaining articles. The
oracle `dbf` gives the outcome of the `i`-th `db.insert_article` call. -/
def save_articles_from (dbf : Nat → Article → DbResult) :
    Nat → List Article → SaveStats
  | _, [] => ⟨0, 0, 0⟩
  | i, a :: rest =>
    let s := save_articles_from dbf (i + 1) rest
    match dbf i a with
    | DbResult.ok true => ⟨s.inserted + 1, s.updated, s.skipped⟩
    | DbResult.ok false => ⟨s.inserted, s.updated, s.skipped + 1⟩
    | DbResult.raised => ⟨s.inserted, s.updated, s.skipped + 1⟩

/-- Model of `EnhancedNewsCollector.save_articles` (src/backend/main.py:65-78). -/
def save_articles (dbf : Nat → Article → DbResult) (articles : List Article) :
    SaveStats :=
  save_articles_from dbf 0 articles

/-- The hard-coded feed list of `collect_all_news` (src/backend/main.py:87-95). -/
def FEEDS : List FeedConfig :=
  [⟨some "https://it.donga.com/feeds/rss/", some "IT동아"⟩,
   ⟨some "https://rss.etnews.com/Section902.xml", some "전자신문_속보"⟩,
   ⟨some "https://www.bloter.net/feed", some "Bloter"⟩,
   ⟨some "https://byline.network/feed/", some "Byline Network"⟩,
   ⟨some "https://platum.kr/feed", some "Platum"⟩,
   ⟨some "https://techcrunch.com/feed/", some "TechCrunch"⟩,
   ⟨some "https://www.theverge.com/rss/index.xml", some "The Verge"⟩]

/-- Model of `feeds_to_process = FEEDS[:max_feeds] if max_feeds else FEEDS`
(src/backend/main.py:95): an absent bound and the falsy bound 0 both keep
the whole list; any other bound is a Python slice. -/
def feedsToProcess (feeds : List FeedConfig) (max_feeds : Option Int) :
    List FeedConfig :=
  match max_feeds with
  | none => feeds
  | some m => if m = 0 then feeds else pySliceTo feeds m

/-- The `self.stats` dict of a run (src/backend/main.py:82): the six keys
set at the start of `collect_all_news`, plus the three keys of
`save_articles` that `self.stats.update(save_stats)` may add later, held
as `Option` to model their absence before that update. -/
structure RunStats where
  total_processed : Nat
  total_inserted : Nat
  total_updated : Nat
  total_skipped : Nat
  failed_feeds : List String
  successful_feeds : List String
  inserted : Option Nat
  updated : Option Nat
  skipped : Option Nat
deriving DecidableEq

/-- The dict returned by `collect_all_news` (src/backend/main.py:110);
the wall-clock `duration` key is omitted from the model. -/
structure RunResult where
  status : String
  stats : RunStats
deriving DecidableEq

/-- The initial `self.stats` value (src/backend/main.py:82). -/
def initialRunStats : RunStats := ⟨0, 0, 0, 0, [], [], none, none, none⟩

/-- Model of `EnhancedNewsCollector.collect_all_news`
(src/backend/main.py:80-111). The hard-coded FEEDS constant is passed as
the `feeds` argument (the single caller uses `FEEDS`); `fetchRes` gives
each feed task result (`collect_from_feed` never raises, so it is a plain
list); the fetched lists are combined after all futures complete, here in
submission order. An empty deduplicated list skips the save step, leaving
the inserted, updated and skipped keys absent; `failed_feeds` and
`successful_feeds` are never touched after initialisation. -/
def collect_all_news (feeds : List FeedConfig) (max_feeds : Option Int)
    (fetchRes : FeedConfig → List Article)
    (dbf : Nat → Article → DbResult) : RunResult :=
  let feeds_to_process := feedsToProcess feeds max_feeds
  let all_articles := (feeds_to_process.map fetchRes).flatten
  let unique_articles := dedupByLink all_articles
  let stats :=
    if unique_articles.isEmpty then initialRunStats
    else
      let s := save_articles dbf unique_articles
      ⟨0, 0, 0, 0, [], [], some s.inserted, some s.updated, some s.skipped⟩
  ⟨"success", stats⟩

/-- Decides whether `needle` is a leading segment of `hay` (character lists). -/
def charsLead : List Char → List Char → Bool
  | [], _ => true
  | _ :: _, [] => false
  | a :: as, b :: bs => a == b && charsLead as bs

/-- Decides whether `needle` occurs contiguously inside `hay` (character lists). -/
def charsInside (needle : List Char) : List Char → Bool
  | [] => charsLead needle []
  | b :: bs => charsLead needle (b :: bs) || charsInside needle bs

/-- Model of the Python substring test `needle in hay` on strings. -/
def pyContains (hay needle : String) : Bool :=
  charsInside needle.toList hay.toList

/-- The STOP_WORDS list of src/backend/keyword_maker.py:11-39 before the
final lowercasing pass. Line 33 of the source file carries mismatched
quotes around the token wont (one double quote closed by a single quote,
a slip that leaves the Python file with an unterminated string literal);
the three entries of that spot are transcribed with their evident
intended spelling. -/
def STOP_WORDS_decl : List String :=
  ["이", "있", "하", "것", "들", "그", "되", "수", "이", "보", "않", "없", "나", "사람", "주", "아니", "등", "같",
   "우리", "때", "년", "가", "한", "지", "대하", "오", "말", "일", "그렇", "위하",
   "때문", "그것", "두", "말하", "알", "그러나", "그런데", "그래서", "그리고", "또", "더",
   "개", "조", "억", "원", "달러", "만", "명", "위", "월", "일", "시간", "분", "초",
   "뉴스", "기사", "속보", "단독", "종합", "사진", "영상", "헤럴드", "경제", "코리아",
   "아이뉴스24", "전자신문", "지디넷", "디지털데일리", "블로터", "씨넷", "it",
   "a", "about", "above", "after", "again", "against", "all", "am", "an", "and", "any", "are", "aren\x27t", "as", "at",
   "be", "because", "been", "before", "being", "below", "between", "both", "but", "by",
   "can", "can\x27t", "cannot", "could", "couldn\x27t", "did", "didn\x27t", "do", "does", "doesn\x27t", "doing", "don\x27t", "down", "during",
   "each", "few", "for", "from", "further", "had", "hadn\x27t", "has", "hasn\x27t", "have", "haven\x27t", "having", "he", "he\x27d", "he\x27ll", "he\x27s",
   "her", "here", "here\x27s", "hers", "herself", "him", "himself", "his", "how", "how\x27s",
   "i", "i\x27d", "i\x27ll", "i\x27m", "i\x27ve", "if", "in", "into", "is", "isn\x27t", "it", "it\x27s", "its", "itself",
   "let\x27s", "me", "more", "most", "mustn\x27t", "my", "myself",
   "no", "nor", "not", "of", "off", "on", "once", "only", "or", "other", "ought", "our", "ours", "ourselves", "out", "over", "own",
   "same", "shan\x27t", "she", "she\x27d", "she\x27ll", "she\x27s", "should", "shouldn\x27t", "so", "some", "such",
   "than", "that", "that\x27s", "the", "their", "theirs", "them", "themselves", "then", "there", "there\x27s", "these", "they", "they\x27d",
   "they\x27ll", "they\x27re", "they\x27ve", "this", "those", "through", "to", "too", "under", "until", "up", "very",
   "was", "wasn\x27t", "we", "we\x27d", "we\x27ll", "we\x27re", "we\x27ve", "were", "weren\x27t", "what", "what\x27s", "when", "when\x27s",
   "where", "where\x27s", "which", "while", "who", "who\x27s", "whom", "why", "why\x27s", "with", "won\x27t", "would", "wouldn\x27t",
   "you", "you\x27d", "you\x27ll", "you\x27re", "you\x27ve", "your", "yours", "yourself", "yourselves",
   "news", "article", "report", "inc", "ltd", "co", "llc"]

/-- Model of `STOP_WORDS = [word.lower() for word in STOP_WORDS]`
(src/backend/keyword_maker.py:41). -/
def STOP_WORDS : List String := STOP_WORDS_decl.map pyLower

/-- The keyword filter comprehension used on both extraction paths
(src/backend/keyword_maker.py:70-74 and 100-104): keep a keyword when its
lowercase form is not a stop word and it is longer than one character. -/
def keywordOk (k : String) : Bool :=
  decide (pyLower k ∉ STOP_WORDS) && decide (1 < k.length)

/-- The filtered-keywords comprehension applied to a raw keyword list. -/
def keywordFilter (ks : List String) : List String := ks.filter keywordOk

/-- The tech_terms vocabulary of `extract_simple_keywords`
(src/backend/keyword_maker.py:85-92). -/
def tech_terms : List String :=
  ["AI", "인공지능", "머신러닝", "딥러닝", "반도체", "5G", "6G",
   "IoT", "클라우드", "빅데이터", "블록체인", "메타버스", "VR", "AR",
   "로봇", "자동화", "스마트팩토리", "디지털전환", "DX", "핀테크",
   "전기차", "자율주행", "배터리", "태양광", "풍력", "수소",
   "양자컴퓨팅", "사이버보안", "해킹", "랜섬웨어", "개인정보보호",
   "스타트업", "유니콘", "벤처캐피탈", "IPO", "M&A"]

/-- Model of `extract_simple_keywords` (src/backend/keyword_maker.py:82-105):
scan the lowercased text for each vocabulary term (case-insensitive
substring test), keep the found terms in vocabulary order, filter them
with the stop-word and length rule, and cap the result at 8. -/
def extract_simple_keywords (text : String) : List String :=
  let text_lower := pyLower text
  let keywords := tech_terms.filter (fun term => pyContains text_lower (pyLower term))
  (keywordFilter keywords).take 8

/-- Splitting of the remote response (src/backend/keyword_maker.py:68-69):
strip the response, split on commas, strip each piece and drop the empty
ones. -/
def splitKeywords (resp : String) : List String :=
  ((pySplitComma (pyStrip resp)).map pyStrip).filter (fun k => !(k == ""))

/-- Model of `extract_keywords` (src/backend/keyword_maker.py:44-80).
`apiKey` models the module-level OPENAI_API_KEY read from the
environment; `remote` models the chat-completion call on the first 1000
characters of the text, returning the response content or raising
(`none`). Empty text or a falsy key returns `[]` at once; a successful
remote call is split, filtered and capped at 8; a raised remote call
falls back to `extract_simple_keywords`. -/
def extract_keywords (apiKey : Option String) (remote : String → Option String)
    (text : String) : List String :=
  if (text == "") || strFalsy apiKey then []
  else
    match remote (pyTake 1000 text) with
    | some resp => (keywordFilter (splitKeywords resp)).take 8
    | none => extract_simple_keywords text

/-- The 19-character template of a Python `datetime.isoformat()` string. -/
def isoTemplate : List Char := "0000-00-00T00:00:00".toList

/-- Template check for one character: the template digit 0 accepts any
digit, every other template character stands for itself. -/
def isoCharOk (t c : Char) : Bool := if t == '0' then c.isDigit else c == t

/-- Acceptable tail after the seconds field: nothing, or a dot followed
by one or more digits (the microseconds that `datetime.isoformat()` may
append). -/
def isoFracOk : List Char → Bool
  | [] => true
  | c :: rest => c == '.' && !rest.isEmpty && rest.all Char.isDigit

/-- Recogniser for the ISO-8601 shape produced by `datetime.isoformat()`
on a naive datetime: YYYY-MM-DDTHH:MM:SS with an optional fractional
part. -/
def isValidISO8601 (s : String) : Bool :=
  let cs := s.toList
  decide (19 ≤ cs.length)
    && (List.zipWith isoCharOk isoTemplate (cs.take 19)).all (fun b => b)
    && isoFracOk (cs.drop 19)

/-- Concrete fetch oracle for closed instances: one article per feed, its
link equal to the feed display name (so all links are distinct). -/
def fetchStub : FeedConfig → List Article :=
  fun c => [⟨"t", c.sourceName, "2026-01-01T00:00:00", c.sourceName, "", "[]"⟩]

/-- Concrete persistence oracle for closed instances: the second call
raises, every other call reports an insert. -/
def dbfRaisesAt1 : Nat → Article → DbResult :=
  fun i _ => if i == 1 then DbResult.raised else DbResult.ok true

/-- Concrete date-parse oracle for closed instances: accept exactly the
strings of ISO shape, returning them unchanged. -/
def dparseIso : String → Option String :=
  fun s => if isValidISO8601 s then some s else none

/-- Two concrete articles sharing one link, for closed dedup instances. -/
def artDupA : Article := ⟨"t1", "L", "2026-01-01T00:00:00", "s1", "", "[]"⟩

/-- Second article of the duplicate-link pair. -/
def artDupB : Article := ⟨"t2", "L", "2026-01-01T00:00:00", "s2", "", "[]"⟩

/-- Three concrete distinct articles for closed save instances. -/
def artW1 : Article := ⟨"t1", "l1", "2026-01-01T00:00:00", "s", "", "[]"⟩

/-- Second article for closed save instances. -/
def artW2 : Article := ⟨"t2", "l2", "2026-01-01T00:00:00", "s", "", "[]"⟩

/-- Third article for closed save instances. -/
def artW3 : Article := ⟨"t3", "l3", "2026-01-01T00:00:00", "s", "", "[]"⟩

/-- Flattening feed results that are all empty yields no articles. -/
theorem flatten_map_nil {α β : Type} (l : List α) :
    (l.map (fun _ => ([] : List β))).flatten = [] := by
  induction l with
  | nil => rfl
  | cons a t ih => simp [ih]

/-- C7: for every feed document, regardless of how many entries it
contains, collect_from_feed returns at most 15 articles (only the first
15 entries are considered). -/
theorem C7_collect_from_feed_cap (dparse : String → Option String)
    (nowIso : String) (cfg : FeedConfig) (parse : FeedParse) :
    (collect_from_feed dparse nowIso cfg parse).length ≤ 15 := by
  cases parse with
  | raised => simp [collect_from_feed]
  | doc entries =>
    simp only [collect_from_feed]
    split
    · simp
    · calc ((entries.take 15).filterMap (entryArticle dparse nowIso cfg.sourceName)).length
          ≤ (entries.take 15).length := List.length_filterMap_le _ _
        _ ≤ 15 := by rw [List.length_take]; exact min_le_left _ _

/-- C3 (counterexample): an entry with no title field at all and a
nonempty link is not excluded — the collector substitutes the placeholder
title "No Title" and emits an article for it. -/
theorem C3_missing_title_cex :
    collect_from_feed (fun _ => none) "2026-01-01T00:00:00"
        ⟨some "http://feed", some "S"⟩
        (FeedParse.doc [⟨none, some "http://x/a", none, none⟩])
      = [⟨"No Title", "http://x/a", "2026-01-01T00:00:00", "S", "", "[]"⟩]
    ∧ collect_from_feed (fun _ => none) "2026-01-01T00:00:00"
        ⟨some "http://feed", some "S"⟩
        (FeedParse.doc [⟨none, some "http://x/a", none, none⟩]) ≠ [] := by
  have heq : collect_from_feed (fun _ => none) "2026-01-01T00:00:00"
      ⟨some "http://feed", some "S"⟩
      (FeedParse.doc [⟨none, some "http://x/a", none, none⟩])
      = [⟨"No Title", "http://x/a", "2026-01-01T00:00:00", "S", "", "[]"⟩] := rfl
  exact ⟨heq, by rw [heq]; simp⟩

/-- C3 (amended): collect_from_feed emits exactly the per-entry results
of the first 15 entries, and an entry is excluded precisely when its
effective title or effective link is empty after trimming — where a
missing link defaults to the empty string (hence exclusion) but a missing
title defaults to the nonempty placeholder "No Title" (hence no exclusion
on that account). -/
theorem C3_blank_title_link_skip (dparse : String → Option String)
    (nowIso : String) (cfg : FeedConfig) (entries : List FeedEntry)
    (e : FeedEntry) :
    collect_from_feed dparse nowIso cfg (FeedParse.doc entries)
      = (entries.take 15).filterMap (entryArticle dparse nowIso cfg.sourceName)
    ∧ (entryArticle dparse nowIso cfg.sourceName e = none
        ↔ pyStrip (e.title.getD "No Title") = "" ∨ pyStrip (e.link.getD "") = "") := by
  constructor
  · simp only [collect_from_feed]
    split
    · next h =>
      rw [List.isEmpty_iff] at h
      simp [h]
    · rfl
  · unfold entryArticle
    by_cases h : pyStrip (e.title.getD "No Title") = "" ∨ pyStrip (e.link.getD "") = ""
    · simp [h]
    · simp [h]

/-- C3 (witness): a concrete whitespace-only link is excluded while the
filterMap description holds on a concrete document. -/
theorem C3_blank_title_link_skip_witness :
    collect_from_feed dparseIso "2026-01-01T00:00:00" ⟨some "u", some "S"⟩
        (FeedParse.doc [⟨some "T", some "  ", none, none⟩])
      = List.filterMap
          (entryArticle dparseIso "2026-01-01T00:00:00"
            (FeedConfig.sourceName ⟨some "u", some "S"⟩))
          (List.take 15 ([⟨some "T", some "  ", none, none⟩] : List FeedEntry))
    ∧ (entryArticle dparseIso "2026-01-01T00:00:00"
          (FeedConfig.sourceName ⟨some "u", some "S"⟩) ⟨some "T", some "  ", none, none⟩ = none
        ↔ pyStrip ((some "T").getD "No Title") = "" ∨ pyStrip ((some "  ").getD "") = "") :=
  C3_blank_title_link_skip dparseIso "2026-01-01T00:00:00" ⟨some "u", some "S"⟩
    [⟨some "T", some "  ", none, none⟩] ⟨some "T", some "  ", none, none⟩

/-- C4 (counterexample): with max_feeds given as 0 the collector does not
process the first 0 sources — the falsy bound keeps the whole list, so
all 7 configured sources are processed and 7 articles get saved. -/
theorem C4_zero_max_feeds_cex :
    feedsToProcess FEEDS (some 0) = FEEDS
    ∧ FEEDS ≠ List.take 0 FEEDS
    ∧ (collect_all_news FEEDS (some 0) fetchStub
        (fun _ _ => DbResult.ok true)).stats.inserted = some 7 := by
  refine ⟨rfl, by simp [FEEDS], ?_⟩
  rfl

/-- C4 (amended): a positive max_feeds selects exactly the first
max_feeds configured sources (clamped at the length of the list); an
absent max_feeds selects all configured sources; the falsy bound 0 also
selects all configured sources rather than none. -/
theorem C4_feeds_to_process (feeds : List FeedConfig) (m : Int) :
    (0 < m → feedsToProcess feeds (some m) = feeds.take m.toNat)
    ∧ feedsToProcess feeds none = feeds
    ∧ feedsToProcess feeds (some 0) = feeds := by
  refine ⟨fun hm => ?_, rfl, by simp [feedsToProcess]⟩
  have h0 : ¬ m = 0 := by omega
  have h1 : (0 : Int) ≤ m := by omega
  simp [feedsToProcess, pySliceTo, h0, h1]

/-- C4 (witness): the bound 2 on the configured list keeps its first two
sources. -/
theorem C4_feeds_to_process_witness :
    (feedsToProcess FEEDS (some 2) = FEEDS.take (2 : Int).toNat)
    ∧ feedsToProcess FEEDS none = FEEDS
    ∧ feedsToProcess FEEDS (some 0) = FEEDS :=
  ⟨(C4_feeds_to_process FEEDS 2).1 (by decide),
   (C4_feeds_to_process FEEDS 2).2.1, (C4_feeds_to_process FEEDS 2).2.2⟩

/-- C1 (counterexample): in an all-failure run over the whole configured
list the returned failed_feeds list is empty, not the full list of
processed feed names — the collector never records feed names in it. -/
theorem C1_failed_feeds_cex :
    (collect_all_news FEEDS none (fun _ => [])
        (fun _ _ => DbResult.raised)).stats.failed_feeds = []
    ∧ (feedsToProcess FEEDS none).map FeedConfig.sourceName
        = ["IT동아", "전자신문_속보", "Bloter", "Byline Network",
           "Platum", "TechCrunch", "The Verge"]
    ∧ (collect_all_news FEEDS none (fun _ => [])
        (fun _ _ => DbResult.raised)).stats.failed_feeds
        ≠ (feedsToProcess FEEDS none).map FeedConfig.sourceName := by
  refine ⟨rfl, rfl, ?_⟩
  intro h
  rw [show (collect_all_news FEEDS none (fun _ => [])
      (fun _ _ => DbResult.raised)).stats.failed_feeds = [] from rfl] at h
  simp [feedsToProcess, FEEDS, FeedConfig.sourceName] at h

/-- C1 (amended): for every feed list, every bound and every persistence
behaviour, a run in which every feed fails (each fetch contributes no
articles) still returns a summary, with status success, an empty
failed_feeds list (the collector never populates it), and no inserted or
skipped counts recorded (the save step is skipped, so callers reading
inserted with a default obtain 0). -/
theorem C1_all_failure_run (feeds : List FeedConfig) (mf : Option Int)
    (dbf : Nat → Article → DbResult) :
    (collect_all_news feeds mf (fun _ => []) dbf).status = "success"
    ∧ (collect_all_news feeds mf (fun _ => []) dbf).stats.failed_feeds = []
    ∧ (collect_all_news feeds mf (fun _ => []) dbf).stats.inserted = none
    ∧ (collect_all_news feeds mf (fun _ => []) dbf).stats.skipped = none := by
  simp only [collect_all_news, flatten_map_nil]
  simp [dedupByLink, initialRunStats]

/-- C8: whenever the published field of an entry is absent, or present
but rejected by the date parser, the emitted article carries the current
wall-clock timestamp: its published field equals nowIso, is of valid ISO
shape (assuming the wall clock produces one, as datetime.isoformat does,
and that the parser round-trips it, as dateutil does), and is never the
raw unparsable string. -/
theorem C8_published_fallback (dparse : String → Option String)
    (nowIso src : String) (e : FeedEntry) (a : Article)
    (hrt : dparse nowIso = some nowIso)
    (hiso : isValidISO8601 nowIso = true)
    (hfail : e.published = none ∨ ∃ s, e.published = some s ∧ dparse s = none)
    (hemit : entryArticle dparse nowIso src e = some a) :
    a.published = nowIso ∧ isValidISO8601 a.published = true
      ∧ ∀ s, e.published = some s → a.published ≠ s := by
  have hmatch : (match dparse (e.published.getD nowIso) with
      | some p => p
      | none => nowIso) = nowIso := by
    rcases hfail with hnone | ⟨s, hs, hds⟩
    · rw [hnone]
      simp [hrt]
    · rw [hs]
      simp [hds]
  simp only [entryArticle] at hemit
  by_cases h : pyStrip (e.title.getD "No Title") = "" ∨ pyStrip (e.link.getD "") = ""
  · rw [if_pos h] at hemit
    exact absurd hemit (by simp)
  · rw [if_neg h] at hemit
    have ha := Option.some.inj hemit
    subst ha
    refine ⟨hmatch, by rw [hmatch]; exact hiso, ?_⟩
    intro s hs hcontra
    rcases hfail with hnone | ⟨s2, hs2, hds2⟩
    · rw [hnone] at hs
      exact Option.noConfusion hs
    · rw [hs2] at hs
      have hss := Option.some.inj hs
      subst hss
      rw [hmatch] at hcontra
      have hns : nowIso = s2 := by simpa using hcontra
      rw [hns, hds2] at hrt
      exact Option.noConfusion hrt

/-- C8 (witness): a concrete entry whose published string is rejected by
a concrete ISO-shaped parser yields an article stamped with the wall
clock. -/
theorem C8_published_fallback_witness :
    (⟨"T", "http://x/a", "2026-01-01T00:00:00", "S", "", "[]"⟩ : Article).published
        = "2026-01-01T00:00:00"
    ∧ isValidISO8601
        (⟨"T", "http://x/a", "2026-01-01T00:00:00", "S", "", "[]"⟩ : Article).published = true
    ∧ ∀ s, (⟨some "T", some "http://x/a", some "garbage", none⟩ : FeedEntry).published = some s →
        (⟨"T", "http://x/a", "2026-01-01T00:00:00", "S", "", "[]"⟩ : Article).published ≠ s :=
  C8_published_fallback dparseIso "2026-01-01T00:00:00" "S"
    ⟨some "T", some "http://x/a", some "garbage", none⟩
    ⟨"T", "http://x/a", "2026-01-01T00:00:00", "S", "", "[]"⟩
    (by decide) (by decide)
    (Or.inr ⟨"garbage", rfl, by decide⟩) (by decide)

/-- C2 (counterexample): with the API key unset, extract_keywords on the
text "AI" returns [] immediately, while the rule-based fallback extractor
returns ["AI"] — so the missing credential does not route to the fallback
and the returned value differs from the fallback result. -/
theorem C2_missing_key_cex :
    extract_keywords none (fun _ => some "Python") "AI" = []
    ∧ extract_simple_keywords "AI" = ["AI"]
    ∧ extract_keywords none (fun _ => some "Python") "AI"
        ≠ extract_simple_keywords "AI" := by
  refine ⟨rfl, by decide, ?_⟩
  intro h
  rw [show extract_keywords none (fun _ => some "Python") "AI" = [] from rfl,
    show extract_simple_keywords "AI" = ["AI"] by decide] at h
  exact List.noConfusion h

/-- C2 (amended): extract_keywords never raises; with the API key unset
(or empty) it returns the empty list immediately, without calling the
remote service and without consulting the rule-based fallback; the
fallback extractor is used exactly when the key is set, the text is
nonempty and the remote call itself raises. -/
theorem C2_missing_key_returns_empty (apiKey : Option String)
    (remote : String → Option String) (text : String) :
    (strFalsy apiKey = true → extract_keywords apiKey remote text = [])
    ∧ (strFalsy apiKey = false → text ≠ "" →
        remote (pyTake 1000 text) = none →
        extract_keywords apiKey remote text = extract_simple_keywords text) := by
  constructor
  · intro hk
    simp [extract_keywords, hk]
  · intro hk ht hr
    have htb : (text == "") = false := beq_eq_false_iff_ne.mpr ht
    simp [extract_keywords, hk, htb, hr]

/-- C2 (witness): concrete instances of both cases — an unset key yields
[], and a raising remote call with a set key yields the fallback result. -/
theorem C2_missing_key_returns_empty_witness :
    extract_keywords none (fun _ => some "Python") "AI" = []
    ∧ extract_keywords (some "sk-test") (fun _ => none) "AI"
        = extract_simple_keywords "AI" :=
  ⟨(C2_missing_key_returns_empty none (fun _ => some "Python") "AI").1 rfl,
   (C2_missing_key_returns_empty (some "sk-test") (fun _ => none) "AI").2
     rfl (by decide) rfl⟩

/-- Unfolding of one save step whose persistence call reports a boolean. -/
theorem save_from_cons_ok (dbf : Nat → Article → DbResult) (i : Nat)
    (a : Article) (l : List Article) (b : Bool) (h : dbf i a = DbResult.ok b) :
    save_articles_from dbf i (a :: l)
      = if b then
          ⟨(save_articles_from dbf (i + 1) l).inserted + 1,
           (save_articles_from dbf (i + 1) l).updated,
           (save_articles_from dbf (i + 1) l).skipped⟩
        else
          ⟨(save_articles_from dbf (i + 1) l).inserted,
           (save_articles_from dbf (i + 1) l).updated,
           (save_articles_from dbf (i + 1) l).skipped + 1⟩ := by
  cases b <;> simp [save_articles_from, h]

/-- Unfolding of one save step whose persistence call raises. -/
theorem save_from_cons_raised (dbf : Nat → Article → DbResult) (i : Nat)
    (a : Article) (l : List Article) (h : dbf i a = DbResult.raised) :
    save_articles_from dbf i (a :: l)
      = ⟨(save_articles_from dbf (i + 1) l).inserted,
         (save_articles_from dbf (i + 1) l).updated,
         (save_articles_from dbf (i + 1) l).skipped + 1⟩ := by
  simp only [save_articles_from, h]

/-- Splitting of the save loop around a list append: the counters over a
concatenation are the componentwise sums, with the second part processed
at the shifted call indices. -/
theorem save_from_append (dbf : Nat → Article → DbResult)
    (xs ys : List Article) : ∀ i : Nat,
    save_articles_from dbf i (xs ++ ys)
      = ⟨(save_articles_from dbf i xs).inserted
            + (save_articles_from dbf (i + xs.length) ys).inserted,
         (save_articles_from dbf i xs).updated
            + (save_articles_from dbf (i + xs.length) ys).updated,
         (save_articles_from dbf i xs).skipped
            + (save_articles_from dbf (i + xs.length) ys).skipped⟩ := by
  induction xs with
  | nil => intro i; simp [save_articles_from]
  | cons a t ih =>
    intro i
    have hidx : i + (a :: t).length = i + 1 + t.length := by
      simp [List.length_cons]; omega
    rw [List.cons_append, hidx]
    rcases h : dbf i a with b | _
    · rw [save_from_cons_ok dbf i a (t ++ ys) b h,
        save_from_cons_ok dbf i a t b h, ih (i + 1)]
      cases b <;> simp <;> omega
    · rw [save_from_cons_raised dbf i a (t ++ ys) h,
        save_from_cons_raised dbf i a t h, ih (i + 1)]
      simp
      omega

/-- Totality of the save loop: every article is accounted for — the
inserted and skipped counters sum to the number of articles, and the
updated counter is never touched. -/
theorem save_from_total (dbf : Nat → Article → DbResult)
    (l : List Article) : ∀ i : Nat,
    (save_articles_from dbf i l).inserted + (save_articles_from dbf i l).skipped
        = l.length
    ∧ (save_articles_from dbf i l).updated = 0 := by
  induction l with
  | nil => intro i; simp [save_articles_from]
  | cons a t ih =>
    intro i
    have ht := ih (i + 1)
    rcases h : dbf i a with b | _
    · rw [save_from_cons_ok dbf i a t b h]
      cases b <;> simp <;> omega
    · rw [save_from_cons_raised dbf i a t h]
      simp
      omega

/-- C9: if the persistence call raises on one article, that article is
counted as skipped, every remaining article is still processed (the
counters over the rest accumulate unchanged at their shifted indices),
and the final counters satisfy inserted + skipped = number of articles
passed in — the run is never aborted by a single persistence failure. -/
theorem C9_save_articles_raised_skip (dbf : Nat → Article → DbResult)
    (xs : List Article) (a : Article) (ys : List Article)
    (hraise : dbf xs.length a = DbResult.raised) :
    (save_articles dbf (xs ++ a :: ys)).inserted
        = (save_articles_from dbf 0 xs).inserted
            + (save_articles_from dbf (xs.length + 1) ys).inserted
    ∧ (save_articles dbf (xs ++ a :: ys)).skipped
        = (save_articles_from dbf 0 xs).skipped
            + (save_articles_from dbf (xs.length + 1) ys).skipped + 1
    ∧ (save_articles dbf (xs ++ a :: ys)).inserted
          + (save_articles dbf (xs ++ a :: ys)).skipped
        = (xs ++ a :: ys).length := by
  have happ := save_from_append dbf xs (a :: ys) 0
  simp only [Nat.zero_add] at happ
  have hcons := save_from_cons_raised dbf xs.length a ys hraise
  have hx := save_from_total dbf xs 0
  have hy := save_from_total dbf ys (xs.length + 1)
  rw [hcons] at happ
  unfold save_articles
  rw [happ]
  simp only [List.length_append, List.length_cons]
  refine ⟨trivial, by omega, by omega⟩

/-- C9 (witness): over three concrete articles with the second
persistence call raising, the run inserts two, skips one, and the
counters sum to three. -/
theorem C9_save_articles_raised_skip_witness :
    (save_articles dbfRaisesAt1 ([artW1] ++ artW2 :: [artW3])).inserted
        = (save_articles_from dbfRaisesAt1 0 [artW1]).inserted
            + (save_articles_from dbfRaisesAt1 ([artW1].length + 1) [artW3]).inserted
    ∧ (save_articles dbfRaisesAt1 ([artW1] ++ artW2 :: [artW3])).skipped
        = (save_articles_from dbfRaisesAt1 0 [artW1]).skipped
            + (save_articles_from dbfRaisesAt1 ([artW1].length + 1) [artW3]).skipped + 1
    ∧ (save_articles dbfRaisesAt1 ([artW1] ++ artW2 :: [artW3])).inserted
          + (save_articles dbfRaisesAt1 ([artW1] ++ artW2 :: [artW3])).skipped
        = ([artW1] ++ artW2 :: [artW3]).length :=
  C9_save_articles_raised_skip dbfRaisesAt1 [artW1] artW2 [artW3] (by decide)

/-- Characterisation of the keyword filter predicate. -/
theorem keywordOk_true {k : String} (h : keywordOk k = true) :
    1 < k.length ∧ pyLower k ∉ STOP_WORDS := by
  simp only [keywordOk, Bool.and_eq_true, decide_eq_true_eq] at h
  exact ⟨h.2, h.1⟩

/-- Every member of a filtered-and-capped keyword list passes the filter. -/
theorem keywordFilter_take_mem {ks : List String} {k : String}
    (h : k ∈ (keywordFilter ks).take 8) :
    1 < k.length ∧ pyLower k ∉ STOP_WORDS :=
  keywordOk_true ((List.mem_filter.mp (List.take_subset _ _ h)).2)

/-- A filtered-and-capped keyword list has at most 8 entries. -/
theorem keywordFilter_take_len (ks : List String) :
    ((keywordFilter ks).take 8).length ≤ 8 := by
  rw [List.length_take]
  exact min_le_left _ _

/-- C6: on every path — remote success, remote failure with fallback, or
the immediate empty return — the list returned by extract_keywords has at
most 8 entries, none of length at most 1 and none whose lowercase form is
a stop word; the same holds for extract_simple_keywords itself. -/
theorem C6_keyword_list_invariant (apiKey : Option String)
    (remote : String → Option String) (text : String) :
    ((extract_keywords apiKey remote text).length ≤ 8
      ∧ ∀ k ∈ extract_keywords apiKey remote text,
          1 < k.length ∧ pyLower k ∉ STOP_WORDS)
    ∧ ((extract_simple_keywords text).length ≤ 8
      ∧ ∀ k ∈ extract_simple_keywords text,
          1 < k.length ∧ pyLower k ∉ STOP_WORDS) := by
  have hsimple : (extract_simple_keywords text).length ≤ 8
      ∧ ∀ k ∈ extract_simple_keywords text,
          1 < k.length ∧ pyLower k ∉ STOP_WORDS := by
    constructor
    · simp only [extract_simple_keywords]
      exact keywordFilter_take_len _
    · intro k hk
      simp only [extract_simple_keywords] at hk
      exact keywordFilter_take_mem hk
  refine ⟨?_, hsimple⟩
  unfold extract_keywords
  split
  · simp
  · rcases hr : remote (pyTake 1000 text) with _ | resp
    · simp only [hr]
      exact hsimple
    · simp only [hr]
      exact ⟨keywordFilter_take_len _, fun k hk => keywordFilter_take_mem hk⟩

/-- C6 (witness): a concrete fallback run returns a bounded, filtered
list containing the vocabulary term AI. -/
theorem C6_keyword_list_invariant_witness :
    (extract_keywords (some "sk-test") (fun _ => none) "AI").length ≤ 8
    ∧ (1 < "AI".length ∧ pyLower "AI" ∉ STOP_WORDS) :=
  ⟨(C6_keyword_list_invariant (some "sk-test") (fun _ => none) "AI").1.1,
   (C6_keyword_list_invariant (some "sk-test") (fun _ => none) "AI").1.2
     "AI" (by decide)⟩

/-- One dict assignment leaves the key sequence unchanged when the key is
already present, and appends it otherwise. -/
theorem links_upsertByLink (acc : List Article) (a : Article) :
    links (upsertByLink acc a)
      = if a.link ∈ links acc then links acc else links acc ++ [a.link] := by
  unfold upsertByLink links
  by_cases h : acc.any (fun b => b.link == a.link) = true
  · rw [if_pos h]
    have hmem : a.link ∈ acc.map Article.link := by
      rcases List.any_eq_true.mp h with ⟨b, hb, hbl⟩
      rw [beq_iff_eq] at hbl
      exact List.mem_map.mpr ⟨b, hb, hbl⟩
    rw [if_pos hmem, List.map_map]
    apply List.map_congr_left
    intro b hb
    by_cases hbeq : (b.link == a.link) = true
    · simp only [Function.comp_apply, if_pos hbeq]
      exact (beq_iff_eq.mp hbeq).symm
    · simp only [Function.comp_apply, if_neg hbeq]
  · rw [if_neg h]
    have hnmem : a.link ∉ acc.map Article.link := by
      intro hm
      rcases List.mem_map.mp hm with ⟨b, hb, hbl⟩
      exact h (List.any_eq_true.mpr ⟨b, hb, beq_iff_eq.mpr hbl⟩)
    rw [if_neg hnmem, List.map_append]
    rfl

/-- Membership in the key sequence of the dict fold: a link appears after
the fold exactly when it was already a key or occurs in the consumed
list. -/
theorem mem_links_foldl (l : List Article) : ∀ (acc : List Article) (s : String),
    s ∈ links (List.foldl upsertByLink acc l) ↔ s ∈ links acc ∨ s ∈ links l := by
  induction l with
  | nil =>
    intro acc s
    simp [links]
  | cons a t ih =>
    intro acc s
    rw [List.foldl_cons, ih, links_upsertByLink]
    have hlinks : s ∈ links (a :: t) ↔ s = a.link ∨ s ∈ links t := by
      simp [links]
    rw [hlinks]
    by_cases h : a.link ∈ links acc
    · rw [if_pos h]
      constructor
      · rintro (hs | hs)
        · exact Or.inl hs
        · exact Or.inr (Or.inr hs)
      · rintro (hs | hs | hs)
        · exact Or.inl hs
        · exact Or.inl (hs ▸ h)
        · exact Or.inr hs
    · rw [if_neg h]
      rw [show s ∈ links acc ++ [a.link] ↔ s ∈ links acc ∨ s = a.link by
        simp]
      tauto

/-- The dict fold keeps the key sequence free of duplicates. -/
theorem nodup_links_foldl (l : List Article) : ∀ acc : List Article,
    (links acc).Nodup → (links (List.foldl upsertByLink acc l)).Nodup := by
  induction l with
  | nil => intro acc h; exact h
  | cons a t ih =>
    intro acc h
    rw [List.foldl_cons]
    apply ih
    rw [links_upsertByLink]
    by_cases hm : a.link ∈ links acc
    · rw [if_pos hm]; exact h
    · rw [if_neg hm]
      rw [List.nodup_append]
      exact ⟨h, List.nodup_singleton _, by
        intro x hx hxa
        rw [List.mem_singleton] at hxa
        exact hm (hxa ▸ hx)⟩

/-- The deduplicated list has pairwise distinct links. -/
theorem nodup_links_dedup (l : List Article) : (links (dedupByLink l)).Nodup :=
  nodup_links_foldl l [] (by simp [links])

/-- A link occurs among the deduplicated articles exactly when it occurs
in the input. -/
theorem mem_links_dedup (l : List Article) (s : String) :
    s ∈ links (dedupByLink l) ↔ s ∈ links l := by
  have h := mem_links_foldl l [] s
  simpa [dedupByLink, links] using h

/-- Every surviving article is the last article of its link in the input
order (last-write-wins of the dict comprehension). -/
theorem dedup_last_wins (l : List Article) : ∀ b ∈ dedupByLink l,
    (l.filter (fun x => x.link == b.link)).getLast? = some b := by
  induction l using List.reverseRecOn with
  | nil =>
    intro b hb
    simp [dedupByLink] at hb
  | append_singleton t a ih =>
    intro b hb
    have hstep : dedupByLink (t ++ [a]) = upsertByLink (dedupByLink t) a := by
      unfold dedupByLink
      rw [List.foldl_append]
      rfl
    rw [hstep] at hb
    unfold upsertByLink at hb
    by_cases h : (dedupByLink t).any (fun c => c.link == a.link) = true
    · rw [if_pos h] at hb
      rcases List.mem_map.mp hb with ⟨c, hc, hcb⟩
      by_cases hbeq : (c.link == a.link) = true
      · rw [if_pos hbeq] at hcb
        rw [← hcb]
        rw [List.filter_append]
        rw [show List.filter (fun x => x.link == a.link) [a] = [a] from by simp]
        exact List.getLast?_concat _
      · rw [if_neg hbeq] at hcb
        rw [← hcb]
        have hne : (a.link == c.link) = false := by
          rw [beq_eq_false_iff_ne]
          intro hab
          exact hbeq (beq_iff_eq.mpr hab.symm)
        rw [List.filter_append]
        rw [show List.filter (fun x => x.link == c.link) [a] = [] from by
          simp [hne]]
        rw [List.append_nil]
        exact ih c hc
    · rw [if_neg h] at hb
      rcases List.mem_append.mp hb with hc | hba
      · have hne : (a.link == b.link) = false := by
          rw [beq_eq_false_iff_ne]
          intro hab
          exact h (List.any_eq_true.mpr ⟨b, hc, beq_iff_eq.mpr hab.symm⟩)
        rw [List.filter_append]
        rw [show List.filter (fun x => x.link == b.link) [a] = [] from by
          simp [hne]]
        rw [List.append_nil]
        exact ih b hc
      · have hba2 : b = a := by simpa using hba
        rw [hba2]
        rw [List.filter_append]
        rw [show List.filter (fun x => x.link == a.link) [a] = [a] from by simp]
        exact List.getLast?_concat _

/-- C5: for every collection of per-feed article lists, the merged result
contains exactly one article per link occurring in the flattened input
(and none for absent links), and each survivor is the article encountered
last among those sharing its link in the flattened iteration order. -/
theorem C5_dedup_unique_last_wins (lists : List (List Article)) :
    (∀ s, s ∈ links lists.flatten
        → (links (dedupByLink lists.flatten)).count s = 1)
    ∧ (∀ s, s ∉ links lists.flatten
        → (links (dedupByLink lists.flatten)).count s = 0)
    ∧ ∀ b ∈ dedupByLink lists.flatten,
        (lists.flatten.filter (fun x => x.link == b.link)).getLast? = some b := by
  refine ⟨?_, ?_, dedup_last_wins _⟩
  · intro s hs
    exact List.count_eq_one_of_mem (nodup_links_dedup _)
      ((mem_links_dedup _ _).mpr hs)
  · intro s hs
    exact List.count_eq_zero.mpr (fun hc => hs ((mem_links_dedup _ _).mp hc))

/-- C5 (witness): two single-article feeds sharing one link merge to a
single article, the one from the second list. -/
theorem C5_dedup_unique_last_wins_witness :
    (links (dedupByLink ([[artDupA], [artDupB]] :
        List (List Article)).flatten)).count "L" = 1
    ∧ (([[artDupA], [artDupB]] : List (List Article)).flatten.filter
        (fun x => x.link == artDupB.link)).getLast? = some artDupB :=
  ⟨(C5_dedup_unique_last_wins [[artDupA], [artDupB]]).1 "L" (by decide),
   (C5_dedup_unique_last_wins [[artDupA], [artDupB]]).2.2 artDupB (by decide)⟩
